import Mathlib

/-! OPENAL sphere renderer: mesh generation and start-up sequence.

A shallow embedding of `src/OpenAL.cpp`.

Modelling conventions.

* A C++ `int` is an `Int`.  Signed overflow is undefined behaviour in C++, so
  `CreateSphere` and `DrawSphere` describe the executions in which every `int`
  expression stays in range.  `CreateSphere32` and `DrawSphere32` are the same
  functions with every `int` expression checked against the range of a 32-bit
  `int`; their result is `none` where an expression overflows.  The two agree
  whenever the vertex count `(numStacks + 1) * (numSlices + 1)` and `2 * numSlices`
  fit an `int` (`DrawSphere32_eq_DrawSphere`).
* `std::vector<T>` is `List T`, `push_back` appends at the end.
* `std::vector<unsigned int>` is `List Nat`.  The conversion `int → unsigned int`
  done by `indices.push_back` is `Int.toNat` in `DrawSphere` and reduction modulo
  `2^32` in `DrawSphere32`; the index loop only converts non-negative values, on
  which the conversion is the identity.
* The floating-point operations used by `CreateSphere` are the fields of
  `FloatOps`; the generator is written once, for any such operations.
  `realArith` reads them over the real numbers.
* A `for (int i = a; i <= b; ++i)` loop is `forLe`, with `<` it is `forLt`; both
  recurse on the loop counter and test the guard before every iteration.
  `forLe32` and `forLt32` also check the increment `++i`.
-/

namespace OPENAL

/-! ## Loops and vectors -/

/-- The loop `for (int i = i₀; i <= hi; ++i) s = body i s`, started at `i`. -/
def forLe {σ : Type} (hi : Int) (body : Int → σ → σ) (i : Int) (s : σ) : σ :=
  if i ≤ hi then forLe hi body (i + 1) (body i s) else s
termination_by (hi + 1 - i).toNat
decreasing_by omega

/-- The loop `for (int i = i₀; i < hi; ++i) s = body i s`, started at `i`. -/
def forLt {σ : Type} (hi : Int) (body : Int → σ → σ) (i : Int) (s : σ) : σ :=
  if i < hi then forLt hi body (i + 1) (body i s) else s
termination_by (hi - i).toNat
decreasing_by omega

/-- The call `v.push_back(x)` on a `std::vector`. -/
def push_back {α : Type} (v : List α) (x : α) : List α := v ++ [x]

/-! ## Floating-point operations -/

/-- The arithmetic `CreateSphere` performs on `double` (type `D`) and `float`
(type `F`) values. -/
structure FloatOps (D F : Type) where
  /-- Conversion `int → double`. -/
  ofInt : Int → D
  /-- The constant `M_PI`. -/
  M_PI : D
  /-- Multiplication of two `double`s. -/
  mulD : D → D → D
  /-- Division of two `double`s. -/
  divD : D → D → D
  /-- The narrowing `double → float` of an initialisation `float phi = ...`. -/
  toFloat : D → F
  /-- The library function `sinf`. -/
  sinf : F → F
  /-- The library function `cosf`. -/
  cosf : F → F
  /-- Multiplication of two `float`s. -/
  mulF : F → F → F

/-- The operations of `CreateSphere` read over the real numbers. -/
noncomputable def realArith : FloatOps ℝ ℝ where
  ofInt := fun n => (n : ℝ)
  M_PI := Real.pi
  mulD := fun a b => a * b
  divD := fun a b => a / b
  toFloat := fun a => a
  sinf := Real.sin
  cosf := Real.cos
  mulF := fun a b => a * b

/-! ## Mesh generation (`CreateSphere`, `DrawSphere`) -/

section Mesh

variable {D F : Type}

/-- The value of `float phi = i * M_PI / numStacks;`. -/
def phi (ops : FloatOps D F) (numStacks i : Int) : F :=
  ops.toFloat (ops.divD (ops.mulD (ops.ofInt i) ops.M_PI) (ops.ofInt numStacks))

/-- The value of `float theta = j * 2 * M_PI / numSlices;`. -/
def theta (ops : FloatOps D F) (numSlices j : Int) : F :=
  ops.toFloat (ops.divD (ops.mulD (ops.ofInt (j * 2)) ops.M_PI) (ops.ofInt numSlices))

/-- The body of the inner loop of `CreateSphere`: compute `x`, `y`, `z` and push
them in that order. -/
def CreateSphere.sliceBody (ops : FloatOps D F) (radius : F) (numSlices : Int) (phi : F)
    (j : Int) (vertices : List F) : List F :=
  let theta := theta ops numSlices j
  let x := ops.mulF (ops.mulF radius (ops.sinf phi)) (ops.cosf theta)
  let y := ops.mulF radius (ops.cosf phi)
  let z := ops.mulF (ops.mulF radius (ops.sinf phi)) (ops.sinf theta)
  push_back (push_back (push_back vertices x) y) z

/-- The body of the outer loop of `CreateSphere`: compute `phi`, run the inner
loop `for (int j = 0; j <= numSlices; ++j)`. -/
def CreateSphere.stackBody (ops : FloatOps D F) (radius : F) (numSlices numStacks : Int)
    (i : Int) (vertices : List F) : List F :=
  let phi := phi ops numStacks i
  forLe numSlices (CreateSphere.sliceBody ops radius numSlices phi) 0 vertices

/-- The function `CreateSphere(radius, numSlices, numStacks, vertices)`; the result is
the content of the reference parameter `vertices` after the call. -/
def CreateSphere (ops : FloatOps D F) (radius : F) (numSlices numStacks : Int)
    (vertices : List F) : List F :=
  forLe numStacks (CreateSphere.stackBody ops radius numSlices numStacks) 0 vertices

/-- The body of the inner index loop of `DrawSphere`: two triangles per quad. -/
def DrawSphere.quadBody (numSlices : Int) (i j : Int) (indices : List Nat) : List Nat :=
  let row1 := i * (numSlices + 1)
  let row2 := (i + 1) * (numSlices + 1)
  let indices := push_back indices (row1 + j).toNat
  let indices := push_back indices (row1 + j + 1).toNat
  let indices := push_back indices (row2 + j).toNat
  let indices := push_back indices (row2 + j).toNat
  let indices := push_back indices (row1 + j + 1).toNat
  push_back indices (row2 + j + 1).toNat

/-- The index loop of `DrawSphere`, started from the empty vector `indices`. -/
def DrawSphere.indices (numSlices numStacks : Int) : List Nat :=
  forLt numStacks
    (fun i indices => forLt numSlices (DrawSphere.quadBody numSlices i) 0 indices) 0 []

/-- What one call of `DrawSphere` hands to the graphics device: the two buffers
uploaded by `glBufferData` and the `count` argument of `glDrawElements`. -/
structure DrawCall (F : Type) where
  vertexBuffer : List F
  indexBuffer : List Nat
  count : Nat

/-- The function `DrawSphere`, up to the draw call.  `window` tells whether the
global `window` is non-null; with a null window the function returns at once and
nothing is drawn (`none`). -/
def DrawSphere (ops : FloatOps D F) (window : Bool) (radius : F) (numSlices numStacks : Int) :
    Option (DrawCall F) :=
  if !window then none
  else
    let vertices := CreateSphere ops radius numSlices numStacks []
    let indices := DrawSphere.indices numSlices numStacks
    some { vertexBuffer := vertices, indexBuffer := indices, count := indices.length }

end Mesh

/-! ## Mesh generation with a 32-bit `int`

The same two functions, with every `int` expression checked against the range of a
32-bit `int`.  A signed overflow is undefined behaviour: the run has no result
(`none`). -/

/-- The largest value of a 32-bit `int`. -/
def INT_MAX : Int := 2147483647

/-- The smallest value of a 32-bit `int`. -/
def INT_MIN : Int := -2147483648

/-- The value of an `int` expression whose mathematical value is `x`: `x` itself when
it fits a 32-bit `int`, nothing when the expression overflows. -/
def checkedInt (x : Int) : Option Int :=
  if INT_MIN ≤ x ∧ x ≤ INT_MAX then some x else none

/-- The `int` expression `a + b`. -/
def add32 (a b : Int) : Option Int := checkedInt (a + b)

/-- The `int` expression `a * b`. -/
def mul32 (a b : Int) : Option Int := checkedInt (a * b)

/-- The conversion `int → unsigned int` (32 bits): reduction modulo `2^32`. -/
def toUnsigned (x : Int) : Nat := (x % 4294967296).toNat

/-- The loop `for (int i = i₀; i <= hi; ++i) s = body i s` with a 32-bit counter,
started at `i`: the increment `++i` overflows when `i = INT_MAX`. -/
def forLe32 {σ : Type} (hi : Int) (body : Int → σ → Option σ) (i : Int) (s : σ) : Option σ :=
  if i ≤ hi then
    match body i s with
    | none => none
    | some s1 => if i + 1 ≤ INT_MAX then forLe32 hi body (i + 1) s1 else none
  else some s
termination_by (INT_MAX - i).toNat
decreasing_by
  simp only [INT_MAX] at *
  omega

/-- The loop `for (int i = i₀; i < hi; ++i) s = body i s` with a 32-bit counter,
started at `i`. -/
def forLt32 {σ : Type} (hi : Int) (body : Int → σ → Option σ) (i : Int) (s : σ) : Option σ :=
  if i < hi then
    match body i s with
    | none => none
    | some s1 => if i + 1 ≤ INT_MAX then forLt32 hi body (i + 1) s1 else none
  else some s
termination_by (INT_MAX - i).toNat
decreasing_by
  simp only [INT_MAX] at *
  omega

/-- The body of the inner loop of `CreateSphere` with a 32-bit `int`: the product
`j * 2` is an `int` expression, the rest is floating-point arithmetic. -/
def CreateSphere32.sliceBody {D F : Type} (ops : FloatOps D F) (radius : F) (numSlices : Int)
    (phi : F) (j : Int) (vertices : List F) : Option (List F) := do
  let j2 ← mul32 j 2
  let theta := ops.toFloat (ops.divD (ops.mulD (ops.ofInt j2) ops.M_PI) (ops.ofInt numSlices))
  let x := ops.mulF (ops.mulF radius (ops.sinf phi)) (ops.cosf theta)
  let y := ops.mulF radius (ops.cosf phi)
  let z := ops.mulF (ops.mulF radius (ops.sinf phi)) (ops.sinf theta)
  pure (push_back (push_back (push_back vertices x) y) z)

/-- The body of the outer loop of `CreateSphere` with a 32-bit `int`. -/
def CreateSphere32.stackBody {D F : Type} (ops : FloatOps D F) (radius : F)
    (numSlices numStacks : Int) (i : Int) (vertices : List F) : Option (List F) :=
  let phi := phi ops numStacks i
  forLe32 numSlices (CreateSphere32.sliceBody ops radius numSlices phi) 0 vertices

/-- The function `CreateSphere` with a 32-bit `int`. -/
def CreateSphere32 {D F : Type} (ops : FloatOps D F) (radius : F) (numSlices numStacks : Int)
    (vertices : List F) : Option (List F) :=
  forLe32 numStacks (CreateSphere32.stackBody ops radius numSlices numStacks) 0 vertices

/-- The body of the inner index loop of `DrawSphere` with a 32-bit `int`: every sum
and product is an `int` expression, and every pushed value is converted to
`unsigned int`. -/
def DrawSphere32.quadBody (numSlices i j : Int) (indices : List Nat) : Option (List Nat) := do
  let row1 ← mul32 i (← add32 numSlices 1)
  let row2 ← mul32 (← add32 i 1) (← add32 numSlices 1)
  let indices := push_back indices (toUnsigned (← add32 row1 j))
  let indices := push_back indices (toUnsigned (← add32 (← add32 row1 j) 1))
  let indices := push_back indices (toUnsigned (← add32 row2 j))
  let indices := push_back indices (toUnsigned (← add32 row2 j))
  let indices := push_back indices (toUnsigned (← add32 (← add32 row1 j) 1))
  pure (push_back indices (toUnsigned (← add32 (← add32 row2 j) 1)))

/-- The index loop of `DrawSphere` with a 32-bit `int`. -/
def DrawSphere32.indices (numSlices numStacks : Int) : Option (List Nat) :=
  forLt32 numStacks
    (fun i indices => forLt32 numSlices (DrawSphere32.quadBody numSlices i) 0 indices) 0 []

/-- The function `DrawSphere` with a 32-bit `int`, up to the draw call.  The result is
`none` when an `int` expression overflows (undefined behaviour), `some none` when the
function returns at once because there is no window, and `some (some d)` when it
reaches the draw call `d`. -/
def DrawSphere32 {D F : Type} (ops : FloatOps D F) (window : Bool) (radius : F)
    (numSlices numStacks : Int) : Option (Option (DrawCall F)) :=
  if !window then some none
  else
    match CreateSphere32 ops radius numSlices numStacks [] with
    | none => none
    | some vertices =>
      match DrawSphere32.indices numSlices numStacks with
      | none => none
      | some indices =>
        some (some { vertexBuffer := vertices, indexBuffer := indices,
                     count := indices.length })

/-! ## Start-up and main loop (`main`) -/

/-- What the window system, the loader and the shader compiler answer during one run
of the program. -/
structure Env where
  /-- The call `glfwInit()` succeeds. -/
  glfwInit : Bool
  /-- The call `glfwCreateWindow` returns a non-null window. -/
  glfwCreateWindow : Bool
  /-- The call `gladLoadGLLoader` succeeds. -/
  gladLoadGLLoader : Bool
  /-- The `GL_COMPILE_STATUS` of the vertex shader. -/
  vertexCompileStatus : Bool
  /-- The `GL_COMPILE_STATUS` of the fragment shader. -/
  fragmentCompileStatus : Bool
  /-- The `GL_LINK_STATUS` of the shader program. -/
  linkStatus : Bool
  /-- The event poll of frame `n` delivers a request to close the window. -/
  closeRequested : Nat → Bool
  /-- The escape key is reported pressed in frame `n`. -/
  escapePressed : Nat → Bool

/-- The functions of the namespace `OPENAL` that `main` calls. -/
inductive Call where
  | InitWindow
  | InitGLAD
  | InitShaders
  | WindowShouldClose
  | ClearBackground
  | DrawSphere
  | SwapBuffers
  | IsKeyPressed
  | CloseWindow
  deriving DecidableEq, Repr

/-- The function `InitWindow`: its return value, and whether the global `window` is
non-null afterwards. -/
def InitWindow (env : Env) : Bool × Bool :=
  if !env.glfwInit then (false, false)
  else if !env.glfwCreateWindow then (false, false)
  else (true, true)

/-- The function `InitGLAD`. -/
def InitGLAD (env : Env) : Bool :=
  if !env.gladLoadGLLoader then false else true

/-- The function `InitShaders`. -/
def InitShaders (env : Env) : Bool :=
  if !env.vertexCompileStatus then false
  else if !env.fragmentCompileStatus then false
  else if !env.linkStatus then false
  else true

/-- The function `WindowShouldClose`; `closeFlag` is the close flag of the window. -/
def WindowShouldClose (window closeFlag : Bool) : Bool :=
  if !window then true else closeFlag

/-- The function `SwapBuffers`: with a window it swaps the buffers and polls the events
of frame `frame`, which may raise the close flag.  The result is the close flag. -/
def SwapBuffers (env : Env) (window : Bool) (frame : Nat) (closeFlag : Bool) : Bool :=
  if window then closeFlag || env.closeRequested frame else closeFlag

/-- The loop `while (!OPENAL::WindowShouldClose()) { ... }` of `main`, from frame number
`frame` on.  The result is the list of calls made so far when the loop is left; `none`
when `fuel` guard evaluations were not enough to see the loop end. -/
def mainLoop (env : Env) (window : Bool) :
    (fuel : Nat) → (frame : Nat) → (closeFlag : Bool) → (trace : List Call) → Option (List Call)
  | 0, _, _, _ => none
  | fuel + 1, frame, closeFlag, trace =>
    let trace := trace ++ [Call.WindowShouldClose]
    if WindowShouldClose window closeFlag then some trace
    else
      let trace := trace ++ [Call.ClearBackground, Call.DrawSphere, Call.SwapBuffers]
      let closeFlag := SwapBuffers env window frame closeFlag
      let trace := trace ++ [Call.IsKeyPressed]
      let closeFlag := if env.escapePressed frame then true else closeFlag
      mainLoop env window fuel (frame + 1) closeFlag trace

/-- The function `main`: the exit code and the calls made; `none` when the main loop
is still running after `fuel` evaluations of its guard. -/
def main (env : Env) (fuel : Nat) : Option (Int × List Call) :=
  let (ok, window) := InitWindow env
  if !ok then some (-1, [Call.InitWindow])
  else if !InitGLAD env then some (-1, [Call.InitWindow, Call.InitGLAD])
  else if !InitShaders env then some (-1, [Call.InitWindow, Call.InitGLAD, Call.InitShaders])
  else
    match mainLoop env window fuel 0 false
        [Call.InitWindow, Call.InitGLAD, Call.InitShaders] with
    | none => none
    | some trace => some (0, trace ++ [Call.CloseWindow])

/-! ## Closed forms used in the proofs -/

/-- The three floats pushed by iteration `j` of the inner loop of `CreateSphere`,
in the order of the three `push_back` calls. -/
def vertexBlock {D F : Type} (ops : FloatOps D F) (radius : F) (numSlices : Int) (p : F)
    (j : Int) : List F :=
  [ops.mulF (ops.mulF radius (ops.sinf p)) (ops.cosf (theta ops numSlices j)),
   ops.mulF radius (ops.cosf p),
   ops.mulF (ops.mulF radius (ops.sinf p)) (ops.sinf (theta ops numSlices j))]

/-- The concatenation `g 0 ++ g 1 ++ ... ++ g (n - 1)`: what a loop that appends the
block `g k` in iteration `k` leaves behind. -/
def concatBlocks {α : Type} (g : Nat → List α) : Nat → List α
  | 0 => []
  | n + 1 => concatBlocks g n ++ g n

/-- The floats pushed by iteration `i` of the outer loop of `CreateSphere`. -/
def rowBlock {D F : Type} (ops : FloatOps D F) (radius : F) (numSlices numStacks : Int)
    (i : Int) : List F :=
  concatBlocks (fun j : Nat => vertexBlock ops radius numSlices (phi ops numStacks i) j)
    (numSlices + 1).toNat

/-- The six indices pushed by iteration `j` of the inner index loop of `DrawSphere`,
in the order of the six `push_back` calls. -/
def quadBlock (numSlices i j : Int) : List Nat :=
  [(i * (numSlices + 1) + j).toNat, (i * (numSlices + 1) + j + 1).toNat,
   ((i + 1) * (numSlices + 1) + j).toNat, ((i + 1) * (numSlices + 1) + j).toNat,
   (i * (numSlices + 1) + j + 1).toNat, ((i + 1) * (numSlices + 1) + j + 1).toNat]

/-- The indices pushed by iteration `i` of the outer index loop of `DrawSphere`. -/
def quadRow (numSlices i : Int) : List Nat :=
  concatBlocks (fun j : Nat => quadBlock numSlices i j) numSlices.toNat

/-! ## Loop lemmas -/

theorem forLt_stop {σ : Type} (hi : Int) (body : Int → σ → σ) (i : Int) (s : σ)
    (h : hi ≤ i) : forLt hi body i s = s := by
  rw [forLt, if_neg (by omega)]

theorem forLt_step {σ : Type} (hi : Int) (body : Int → σ → σ) (i : Int) (s : σ)
    (h : i < hi) : forLt hi body i s = forLt hi body (i + 1) (body i s) := by
  rw [forLt, if_pos h]

theorem forLe_eq_forLt {σ : Type} (hi : Int) (body : Int → σ → σ) (n : Nat) :
    ∀ (i : Int) (s : σ), (hi + 1 - i).toNat = n →
      forLe hi body i s = forLt (hi + 1) body i s := by
  induction n with
  | zero =>
    intro i s h
    rw [forLe, forLt, if_neg (by omega), if_neg (by omega)]
  | succ n ih =>
    intro i s h
    rw [forLe, forLt, if_pos (by omega), if_pos (by omega)]
    exact ih (i + 1) (body i s) (by omega)

theorem concatBlocks_shift {α : Type} (g : Nat → List α) (n : Nat) :
    g 0 ++ concatBlocks (fun k => g (k + 1)) n = concatBlocks g (n + 1) := by
  induction n with
  | zero => simp [concatBlocks]
  | succ n ih =>
    rw [concatBlocks, ← List.append_assoc, ih, concatBlocks, concatBlocks, concatBlocks]

/-- A counting loop whose body appends the block `g i` in iteration `i` appends the
blocks of all its iterations, in order. -/
theorem forLt_append {α : Type} (hi : Int) (body : Int → List α → List α)
    (g : Int → List α) (hbody : ∀ i s, body i s = s ++ g i) (n : Nat) :
    ∀ (i : Int) (s : List α), (hi - i).toNat = n →
      forLt hi body i s = s ++ concatBlocks (fun k => g (i + k)) n := by
  induction n with
  | zero =>
    intro i s h
    rw [forLt_stop _ _ _ _ (by omega)]
    simp [concatBlocks]
  | succ n ih =>
    intro i s h
    rw [forLt_step _ _ _ _ (by omega), ih (i + 1) (body i s) (by omega), hbody,
      List.append_assoc, ← concatBlocks_shift]
    congr 2
    · simp
    · congr 1
      funext k
      congr 1
      push_cast
      ring

theorem forLe_append {α : Type} (hi : Int) (body : Int → List α → List α)
    (g : Int → List α) (hbody : ∀ i s, body i s = s ++ g i) (s : List α) :
    forLe hi body 0 s = s ++ concatBlocks (fun k => g k) (hi + 1).toNat := by
  rw [forLe_eq_forLt hi body _ 0 s rfl, forLt_append (hi + 1) body g hbody _ 0 s rfl]
  simp

theorem length_concatBlocks {α : Type} (g : Nat → List α) (c : Nat)
    (hc : ∀ k, (g k).length = c) (n : Nat) : (concatBlocks g n).length = n * c := by
  induction n with
  | zero => simp [concatBlocks]
  | succ n ih => rw [concatBlocks, List.length_append, ih, hc]; ring

theorem getElem?_concatBlocks {α : Type} (g : Nat → List α) (c : Nat)
    (hc : ∀ k, (g k).length = c) (n m r : Nat) (hm : m < n) (hr : r < c) :
    (concatBlocks g n)[m * c + r]? = (g m)[r]? := by
  induction n with
  | zero => omega
  | succ n ih =>
    rw [concatBlocks]
    by_cases hmn : m < n
    · have hlt : m * c + r < (concatBlocks g n).length := by
        rw [length_concatBlocks g c hc]
        calc m * c + r < m * c + c := by omega
          _ = (m + 1) * c := by ring
          _ ≤ n * c := Nat.mul_le_mul_right c hmn
      rw [List.getElem?_append_left hlt]
      exact ih hmn
    · have hmn2 : m = n := by omega
      subst hmn2
      have hge : (concatBlocks g m).length ≤ m * c + r := by
        rw [length_concatBlocks g c hc]; omega
      rw [List.getElem?_append_right hge, length_concatBlocks g c hc]
      congr 1
      omega

/-! ## Closed form of the vertex list -/

section MeshLemmas

variable {D F : Type}

theorem sliceBody_eq (ops : FloatOps D F) (radius : F) (numSlices : Int) (p : F) (j : Int)
    (s : List F) :
    CreateSphere.sliceBody ops radius numSlices p j s
      = s ++ vertexBlock ops radius numSlices p j := by
  simp [CreateSphere.sliceBody, vertexBlock, push_back]

theorem length_vertexBlock (ops : FloatOps D F) (radius : F) (numSlices : Int) (p : F)
    (j : Int) : (vertexBlock ops radius numSlices p j).length = 3 := rfl

theorem stackBody_eq (ops : FloatOps D F) (radius : F) (numSlices numStacks : Int) (i : Int)
    (s : List F) :
    CreateSphere.stackBody ops radius numSlices numStacks i s
      = s ++ rowBlock ops radius numSlices numStacks i := by
  unfold CreateSphere.stackBody rowBlock
  exact forLe_append numSlices _ _ (sliceBody_eq ops radius numSlices _) s

theorem length_rowBlock (ops : FloatOps D F) (radius : F) (numSlices numStacks : Int) (i : Int) :
    (rowBlock ops radius numSlices numStacks i).length = (numSlices + 1).toNat * 3 := by
  unfold rowBlock
  exact length_concatBlocks _ 3 (fun k => length_vertexBlock ops radius numSlices _ _) _

/-- The vertex list after `CreateSphere`: the old content followed by the rows
`i = 0, ..., numStacks`, each made of the vertices `j = 0, ..., numSlices`. -/
theorem CreateSphere_eq (ops : FloatOps D F) (radius : F) (numSlices numStacks : Int)
    (v : List F) :
    CreateSphere ops radius numSlices numStacks v
      = v ++ concatBlocks (fun i : Nat => rowBlock ops radius numSlices numStacks i)
          (numStacks + 1).toNat := by
  unfold CreateSphere
  exact forLe_append numStacks _ _ (stackBody_eq ops radius numSlices numStacks) v

theorem length_CreateSphere (ops : FloatOps D F) (radius : F) (numSlices numStacks : Int)
    (v : List F) :
    (CreateSphere ops radius numSlices numStacks v).length
      = v.length + (numStacks + 1).toNat * ((numSlices + 1).toNat * 3) := by
  rw [CreateSphere_eq, List.length_append,
    length_concatBlocks _ _ (fun k => length_rowBlock ops radius numSlices numStacks _)]

end MeshLemmas

/-! ## Closed form of the index list -/

theorem quadBody_eq (numSlices i j : Int) (s : List Nat) :
    DrawSphere.quadBody numSlices i j s = s ++ quadBlock numSlices i j := by
  simp [DrawSphere.quadBody, quadBlock, push_back]

theorem length_quadBlock (numSlices i j : Int) : (quadBlock numSlices i j).length = 6 := rfl

theorem length_quadRow (numSlices i : Int) :
    (quadRow numSlices i).length = numSlices.toNat * 6 := by
  unfold quadRow
  exact length_concatBlocks _ 6 (fun k => length_quadBlock numSlices i _) _

theorem quadLoop_eq (numSlices i : Int) (s : List Nat) :
    forLt numSlices (DrawSphere.quadBody numSlices i) 0 s = s ++ quadRow numSlices i := by
  rw [forLt_append numSlices _ _ (quadBody_eq numSlices i) _ 0 s rfl]
  simp [quadRow]

/-- The index list of `DrawSphere`: the quads of the rows `i = 0, ..., numStacks - 1`, each
row made of the quads `j = 0, ..., numSlices - 1`. -/
theorem indices_eq (numSlices numStacks : Int) :
    DrawSphere.indices numSlices numStacks
      = concatBlocks (fun i : Nat => quadRow numSlices i) numStacks.toNat := by
  unfold DrawSphere.indices
  rw [forLt_append numStacks _ _ (quadLoop_eq numSlices) _ 0 [] rfl]
  simp

theorem length_indices (numSlices numStacks : Int) :
    (DrawSphere.indices numSlices numStacks).length
      = numStacks.toNat * (numSlices.toNat * 6) := by
  rw [indices_eq, length_concatBlocks _ _ (fun k => length_quadRow numSlices _)]

theorem mem_concatBlocks {α : Type} (g : Nat → List α) (x : α) (n : Nat) :
    x ∈ concatBlocks g n ↔ ∃ k, k < n ∧ x ∈ g k := by
  induction n with
  | zero => simp [concatBlocks]
  | succ n ih =>
    rw [concatBlocks, List.mem_append, ih]
    constructor
    · rintro (⟨k, hk, hx⟩ | hx)
      · exact ⟨k, by omega, hx⟩
      · exact ⟨n, by omega, hx⟩
    · rintro ⟨k, hk, hx⟩
      by_cases hkn : k < n
      · exact Or.inl ⟨k, hkn, hx⟩
      · have hkn2 : k = n := by omega
        subst hkn2
        exact Or.inr hx

/-- On natural-number arguments the `int` arithmetic of the index loop is the
arithmetic of natural numbers: the conversion to `unsigned int` changes nothing. -/
theorem quadBlock_natCast (nSlices i j : Nat) :
    quadBlock nSlices i j
      = [i * (nSlices + 1) + j, i * (nSlices + 1) + j + 1, (i + 1) * (nSlices + 1) + j,
         (i + 1) * (nSlices + 1) + j, i * (nSlices + 1) + j + 1,
         (i + 1) * (nSlices + 1) + j + 1] := by
  have h1 : ((i : Int) * ((nSlices : Int) + 1) + j).toNat = i * (nSlices + 1) + j := by
    norm_cast
  have h2 : ((i : Int) * ((nSlices : Int) + 1) + j + 1).toNat = i * (nSlices + 1) + j + 1 := by
    norm_cast
  have h3 : (((i : Int) + 1) * ((nSlices : Int) + 1) + j).toNat
      = (i + 1) * (nSlices + 1) + j := by
    norm_cast
  have h4 : (((i : Int) + 1) * ((nSlices : Int) + 1) + j + 1).toNat
      = (i + 1) * (nSlices + 1) + j + 1 := by
    norm_cast
  simp only [quadBlock, h1, h2, h3, h4]

/-- Every `int` value the index loop converts to `unsigned int` is non-negative:
inside the loops `0 ≤ i`, `0 ≤ j` and `j < numSlices`. -/
theorem quadBody_values_nonneg (numSlices i j : Int) (hi : 0 ≤ i) (hj : 0 ≤ j)
    (hjs : j < numSlices) :
    0 ≤ i * (numSlices + 1) + j ∧ 0 ≤ i * (numSlices + 1) + j + 1
      ∧ 0 ≤ (i + 1) * (numSlices + 1) + j ∧ 0 ≤ (i + 1) * (numSlices + 1) + j + 1 := by
  have h1 : 0 ≤ i * (numSlices + 1) := Int.mul_nonneg hi (by omega)
  have h2 : 0 ≤ (i + 1) * (numSlices + 1) := Int.mul_nonneg (by omega) (by omega)
  omega

/-- The six indices of quad `(i, j)` sit at positions `6*(i*nSlices+j) + r`, `r < 6`. -/
theorem indices_getElem? (nSlices nStacks i j r : Nat) (hi : i < nStacks) (hj : j < nSlices)
    (hr : r < 6) :
    (DrawSphere.indices nSlices nStacks)[6 * (i * nSlices + j) + r]?
      = (quadBlock nSlices i j)[r]? := by
  have hpos : 6 * (i * nSlices + j) + r = i * (nSlices * 6) + (j * 6 + r) := by ring
  rw [indices_eq, hpos, Int.toNat_ofNat,
    getElem?_concatBlocks _ (nSlices * 6) (fun k => by rw [length_quadRow, Int.toNat_ofNat])
      nStacks i (j * 6 + r) hi (by omega)]
  unfold quadRow
  rw [Int.toNat_ofNat,
    getElem?_concatBlocks _ 6 (fun k => length_quadBlock _ _ _) nSlices j r hj hr]

/-- The three floats of vertex `(i, j)` sit at positions `3*(i*(nSlices+1)+j) + r`, `r < 3`. -/
theorem CreateSphere_getElem? {D F : Type} (ops : FloatOps D F) (radius : F)
    (nSlices nStacks i j r : Nat) (hi : i ≤ nStacks) (hj : j ≤ nSlices) (hr : r < 3) :
    (CreateSphere ops radius nSlices nStacks [])[3 * (i * (nSlices + 1) + j) + r]?
      = (vertexBlock ops radius nSlices (phi ops nStacks i) j)[r]? := by
  have h1 : ((nStacks : Int) + 1).toNat = nStacks + 1 := by omega
  have h2 : ((nSlices : Int) + 1).toNat = nSlices + 1 := by omega
  have hpos : 3 * (i * (nSlices + 1) + j) + r = i * ((nSlices + 1) * 3) + (j * 3 + r) := by
    ring
  rw [CreateSphere_eq, List.nil_append, hpos, h1,
    getElem?_concatBlocks _ ((nSlices + 1) * 3) (fun k => by rw [length_rowBlock, h2])
      (nStacks + 1) i (j * 3 + r) (by omega) (by omega)]
  unfold rowBlock
  rw [h2, getElem?_concatBlocks _ 3 (fun k => length_vertexBlock _ _ _ _ _) (nSlices + 1) j r
    (by omega) hr]

/-- Every index pushed by the index loop is below the vertex count. -/
theorem mem_indices_lt (nSlices nStacks x : Nat)
    (hx : x ∈ DrawSphere.indices nSlices nStacks) : x < (nStacks + 1) * (nSlices + 1) := by
  rw [indices_eq, mem_concatBlocks] at hx
  obtain ⟨i, hi, hx3⟩ := hx
  unfold quadRow at hx3
  rw [mem_concatBlocks] at hx3
  obtain ⟨j, hj, hx4⟩ := hx3
  rw [Int.toNat_ofNat] at hi hj
  rw [quadBlock_natCast] at hx4
  have hb1 : (i + 1) * (nSlices + 1) ≤ nStacks * (nSlices + 1) :=
    Nat.mul_le_mul_right _ (by omega)
  have hb2 : i * (nSlices + 1) ≤ (i + 1) * (nSlices + 1) :=
    Nat.mul_le_mul_right _ (by omega)
  have hb3 : (nStacks + 1) * (nSlices + 1) = nStacks * (nSlices + 1) + (nSlices + 1) := by
    ring
  simp only [List.mem_cons, List.mem_singleton, List.not_mem_nil, or_false] at hx4
  omega

/-- When the vertex count fits a 32-bit `int`, so does every value the index loop
computes and pushes: no `int` expression of the loop overflows. -/
theorem indices_fit_int (nSlices nStacks x : Nat)
    (hfit : (nStacks + 1) * (nSlices + 1) ≤ 2 ^ 31)
    (hx : x ∈ DrawSphere.indices nSlices nStacks) : x < 2 ^ 31 :=
  Nat.lt_of_lt_of_le (mem_indices_lt nSlices nStacks x hx) hfit

/-! ## The 32-bit model: agreement in range, overflow out of range -/

theorem checkedInt_of_range (x : Int) (h1 : -2147483648 ≤ x) (h2 : x ≤ 2147483647) :
    checkedInt x = some x := by
  simp only [checkedInt, INT_MIN, INT_MAX]
  rw [if_pos ⟨h1, h2⟩]

theorem checkedInt_of_gt (x : Int) (h : 2147483647 < x) : checkedInt x = none := by
  simp only [checkedInt, INT_MIN, INT_MAX]
  rw [if_neg (by omega)]

theorem toUnsigned_of_range (x : Int) (h1 : 0 ≤ x) (h2 : x ≤ 2147483647) :
    toUnsigned x = x.toNat := by
  unfold toUnsigned
  rw [Int.emod_eq_of_lt h1 (by omega)]

/-- A 32-bit `<=` loop whose bound is below `INT_MAX` and whose body does not overflow
is the loop on unbounded integers. -/
theorem forLe32_eq_forLe {σ : Type} (hi : Int) (body32 : Int → σ → Option σ)
    (body : Int → σ → σ) (i0 : Int) (hhi : hi < 2147483647)
    (hbody : ∀ k s, i0 ≤ k → k ≤ hi → body32 k s = some (body k s)) (n : Nat) :
    ∀ (i : Int) (s : σ), i0 ≤ i → (hi + 1 - i).toNat = n →
      forLe32 hi body32 i s = some (forLe hi body i s) := by
  induction n with
  | zero =>
    intro i s _ h
    rw [forLe32, forLe, if_neg (by omega), if_neg (by omega)]
  | succ n ih =>
    intro i s hi0 h
    have hle : i ≤ hi := by omega
    rw [forLe32, forLe, if_pos hle, if_pos hle, hbody i s hi0 hle]
    simp only [INT_MAX]
    rw [if_pos (by omega)]
    exact ih (i + 1) (body i s) (by omega) (by omega)

/-- A 32-bit `<` loop whose bound is at most `INT_MAX` and whose body does not overflow
is the loop on unbounded integers. -/
theorem forLt32_eq_forLt {σ : Type} (hi : Int) (body32 : Int → σ → Option σ)
    (body : Int → σ → σ) (i0 : Int) (hhi : hi ≤ 2147483647)
    (hbody : ∀ k s, i0 ≤ k → k < hi → body32 k s = some (body k s)) (n : Nat) :
    ∀ (i : Int) (s : σ), i0 ≤ i → (hi - i).toNat = n →
      forLt32 hi body32 i s = some (forLt hi body i s) := by
  induction n with
  | zero =>
    intro i s _ h
    rw [forLt32, forLt, if_neg (by omega), if_neg (by omega)]
  | succ n ih =>
    intro i s hi0 h
    have hlt : i < hi := by omega
    rw [forLt32, forLt, if_pos hlt, if_pos hlt, hbody i s hi0 hlt]
    simp only [INT_MAX]
    rw [if_pos (by omega)]
    exact ih (i + 1) (body i s) (by omega) (by omega)

/-- A 32-bit `<=` loop with bound `INT_MAX` never leaves through its guard: when the
body does not overflow, the increment of the counter does. -/
theorem forLe32_INT_MAX {σ : Type} (body32 : Int → σ → Option σ)
    (hbody : ∀ k s, ∃ s1, body32 k s = some s1) (n : Nat) :
    ∀ (i : Int) (s : σ), i ≤ 2147483647 → (2147483647 - i).toNat = n →
      forLe32 2147483647 body32 i s = none := by
  induction n with
  | zero =>
    intro i s hi h
    obtain ⟨s1, hs1⟩ := hbody i s
    rw [forLe32, if_pos hi, hs1]
    simp only [INT_MAX]
    rw [if_neg (by omega)]
  | succ n ih =>
    intro i s hi h
    obtain ⟨s1, hs1⟩ := hbody i s
    rw [forLe32, if_pos hi, hs1]
    simp only [INT_MAX]
    rw [if_pos (by omega)]
    exact ih (i + 1) s1 (by omega) (by omega)

/-- A 32-bit `<=` loop that reaches an iteration `k` whose body overflows has no
result. -/
theorem forLe32_overflow {σ : Type} (hi : Int) (body32 : Int → σ → Option σ) (k : Int)
    (hk : k ≤ hi) (hk2 : k ≤ 2147483647) (hbody : ∀ s, body32 k s = none) (n : Nat) :
    ∀ (i : Int) (s : σ), i ≤ k → (k - i).toNat = n → forLe32 hi body32 i s = none := by
  induction n with
  | zero =>
    intro i s hik h
    have hik2 : i = k := by omega
    rw [forLe32, if_pos (by omega), hik2, hbody]
  | succ n ih =>
    intro i s hik h
    rw [forLe32, if_pos (by omega)]
    cases hb : body32 i s with
    | none => rfl
    | some s1 =>
      simp only [INT_MAX]
      rw [if_pos (by omega)]
      exact ih (i + 1) s1 (by omega) (by omega)

section Mesh32

variable {D F : Type}

/-- An iteration of the inner vertex loop whose product `j * 2` fits an `int` does what
the body on unbounded integers does. -/
theorem sliceBody32_eq (ops : FloatOps D F) (radius : F) (numSlices : Int) (p : F) (j : Int)
    (s : List F) (hj : 0 ≤ j) (hj2 : j * 2 ≤ 2147483647) :
    CreateSphere32.sliceBody ops radius numSlices p j s
      = some (CreateSphere.sliceBody ops radius numSlices p j s) := by
  simp only [CreateSphere32.sliceBody, mul32, checkedInt_of_range (j * 2) (by omega) hj2]
  rfl

/-- An iteration of the inner vertex loop whose product `j * 2` does not fit an `int`
has no result. -/
theorem sliceBody32_overflow (ops : FloatOps D F) (radius : F) (numSlices : Int) (p : F)
    (j : Int) (s : List F) (hj : 2147483647 < j * 2) :
    CreateSphere32.sliceBody ops radius numSlices p j s = none := by
  simp only [CreateSphere32.sliceBody, mul32, checkedInt_of_gt (j * 2) hj]
  rfl

theorem stackBody32_eq (ops : FloatOps D F) (radius : F) (numSlices numStacks : Int)
    (i : Int) (s : List F) (hsl : 2 * numSlices ≤ 2147483647) :
    CreateSphere32.stackBody ops radius numSlices numStacks i s
      = some (CreateSphere.stackBody ops radius numSlices numStacks i s) := by
  unfold CreateSphere32.stackBody CreateSphere.stackBody
  exact forLe32_eq_forLe numSlices _ _ 0 (by omega)
    (fun k s hk hk2 => sliceBody32_eq ops radius numSlices _ k s hk (by omega)) _ 0 s
    (le_refl 0) rfl

/-- With `numStacks < INT_MAX` and `2 * numSlices ≤ INT_MAX` no `int` expression of
`CreateSphere` overflows, and the function on unbounded integers gives its result. -/
theorem CreateSphere32_eq (ops : FloatOps D F) (radius : F) (numSlices numStacks : Int)
    (v : List F) (hst : numStacks < 2147483647) (hsl : 2 * numSlices ≤ 2147483647) :
    CreateSphere32 ops radius numSlices numStacks v
      = some (CreateSphere ops radius numSlices numStacks v) := by
  unfold CreateSphere32 CreateSphere
  exact forLe32_eq_forLe numStacks _ _ 0 hst
    (fun k s _ _ => stackBody32_eq ops radius numSlices numStacks k s hsl) _ 0 v
    (le_refl 0) rfl

end Mesh32

/-- An iteration of the inner index loop whose largest value `row2 + j + 1` fits an
`int` does what the body on unbounded integers does. -/
theorem quadBody32_eq (numSlices i j : Int) (s : List Nat) (hs : 0 ≤ numSlices) (hi : 0 ≤ i)
    (hj : 0 ≤ j) (hfit : (i + 1) * (numSlices + 1) + j + 1 ≤ 2147483647) :
    DrawSphere32.quadBody numSlices i j s = some (DrawSphere.quadBody numSlices i j s) := by
  have hrow1 : 0 ≤ i * (numSlices + 1) := Int.mul_nonneg hi (by omega)
  have hrow2 : (i + 1) * (numSlices + 1) = i * (numSlices + 1) + numSlices + 1 := by ring
  have hrow0 : i ≤ i * (numSlices + 1) := le_mul_of_one_le_right hi (by omega)
  have c1 : checkedInt (numSlices + 1) = some (numSlices + 1) :=
    checkedInt_of_range _ (by omega) (by omega)
  have c2 : checkedInt (i * (numSlices + 1)) = some (i * (numSlices + 1)) :=
    checkedInt_of_range _ (by omega) (by omega)
  have c3 : checkedInt (i + 1) = some (i + 1) :=
    checkedInt_of_range _ (by omega) (by omega)
  have c4 : checkedInt ((i + 1) * (numSlices + 1)) = some ((i + 1) * (numSlices + 1)) :=
    checkedInt_of_range _ (by omega) (by omega)
  have c5 : checkedInt (i * (numSlices + 1) + j) = some (i * (numSlices + 1) + j) :=
    checkedInt_of_range _ (by omega) (by omega)
  have c6 : checkedInt (i * (numSlices + 1) + j + 1) = some (i * (numSlices + 1) + j + 1) :=
    checkedInt_of_range _ (by omega) (by omega)
  have c7 : checkedInt ((i + 1) * (numSlices + 1) + j) = some ((i + 1) * (numSlices + 1) + j) :=
    checkedInt_of_range _ (by omega) (by omega)
  have c8 : checkedInt ((i + 1) * (numSlices + 1) + j + 1)
      = some ((i + 1) * (numSlices + 1) + j + 1) :=
    checkedInt_of_range _ (by omega) (by omega)
  have u1 : toUnsigned (i * (numSlices + 1) + j) = (i * (numSlices + 1) + j).toNat :=
    toUnsigned_of_range _ (by omega) (by omega)
  have u2 : toUnsigned (i * (numSlices + 1) + j + 1) = (i * (numSlices + 1) + j + 1).toNat :=
    toUnsigned_of_range _ (by omega) (by omega)
  have u3 : toUnsigned ((i + 1) * (numSlices + 1) + j)
      = ((i + 1) * (numSlices + 1) + j).toNat :=
    toUnsigned_of_range _ (by omega) (by omega)
  have u4 : toUnsigned ((i + 1) * (numSlices + 1) + j + 1)
      = ((i + 1) * (numSlices + 1) + j + 1).toNat :=
    toUnsigned_of_range _ (by omega) (by omega)
  simp only [DrawSphere32.quadBody, DrawSphere.quadBody, add32, mul32, c1, c2, c3, c4, c5, c6,
    c7, c8, u1, u2, u3, u4, Option.bind_eq_bind, Option.some_bind, Option.pure_def]

/-- When the vertex count fits an `int`, no `int` expression of the index loop
overflows, and the loop on unbounded integers gives its result. -/
theorem indices32_eq (nSlices nStacks : Nat)
    (hfit : (nStacks + 1) * (nSlices + 1) ≤ 2147483647) :
    DrawSphere32.indices nSlices nStacks = some (DrawSphere.indices nSlices nStacks) := by
  have hfit2 : ((nStacks : Int) + 1) * ((nSlices : Int) + 1) ≤ 2147483647 := by
    exact_mod_cast hfit
  have hexp : ((nStacks : Int) + 1) * ((nSlices : Int) + 1)
      = (nStacks : Int) * ((nSlices : Int) + 1) + nSlices + 1 := by ring
  have hpos : 0 ≤ (nStacks : Int) * ((nSlices : Int) + 1) :=
    Int.mul_nonneg (by omega) (by omega)
  have hpos2 : 0 ≤ (nStacks : Int) * (nSlices : Int) := Int.mul_nonneg (by omega) (by omega)
  have hexp2 : (nStacks : Int) * ((nSlices : Int) + 1)
      = (nStacks : Int) * (nSlices : Int) + nStacks := by ring
  unfold DrawSphere32.indices DrawSphere.indices
  refine forLt32_eq_forLt nStacks _ _ 0 (by omega) ?_ _ 0 [] (le_refl 0) rfl
  intro i s hi0 hi
  refine forLt32_eq_forLt nSlices _ _ 0 (by omega) ?_ _ 0 s (le_refl 0) rfl
  intro j t hj0 hj
  refine quadBody32_eq nSlices i j t (by omega) hi0 hj0 ?_
  have hmono : (i + 1) * ((nSlices : Int) + 1) ≤ (nStacks : Int) * ((nSlices : Int) + 1) :=
    Int.mul_le_mul_of_nonneg_right (by omega) (by omega)
  omega

/-- With `slices = 0` (and `stacks ≤ INT_MAX`) or `stacks = 0` the index loop pushes
nothing, and none of its `int` expressions overflows. -/
theorem indices32_degenerate (numSlices numStacks : Int)
    (h : (numSlices = 0 ∧ numStacks ≤ 2147483647) ∨ numStacks = 0) :
    DrawSphere32.indices numSlices numStacks = some []
      ∧ DrawSphere.indices numSlices numStacks = [] := by
  have hnil : DrawSphere.indices numSlices numStacks = [] := by
    apply List.length_eq_zero.mp
    rw [length_indices]
    rcases h with ⟨h, _⟩ | h <;> simp [h]
  refine ⟨?_, hnil⟩
  rw [← hnil]
  rcases h with ⟨h, hst⟩ | h
  · subst h
    unfold DrawSphere32.indices DrawSphere.indices
    refine forLt32_eq_forLt numStacks _ _ 0 hst ?_ _ 0 [] (le_refl 0) rfl
    intro i s _ _
    rw [forLt32, if_neg (by omega), forLt_stop _ _ _ _ (le_refl 0)]
  · subst h
    unfold DrawSphere32.indices DrawSphere.indices
    rw [forLt32, if_neg (by omega), forLt_stop _ _ _ _ (le_refl 0)]

/-- In range the two models of `DrawSphere` agree: when the vertex count and `2 * slices`
fit an `int`, the run with a 32-bit `int` has the result of the run on unbounded
integers. -/
theorem DrawSphere32_eq_DrawSphere (D F : Type) (ops : FloatOps D F) (window : Bool)
    (radius : F) (nSlices nStacks : Nat)
    (hfit : (nStacks + 1) * (nSlices + 1) ≤ 2147483647) (hsl : 2 * nSlices ≤ 2147483647) :
    DrawSphere32 ops window radius nSlices nStacks
      = some (DrawSphere ops window radius nSlices nStacks) := by
  have hst : (nStacks : Int) < 2147483647 := by
    have h1 : nStacks + 1 ≤ (nStacks + 1) * (nSlices + 1) := Nat.le_mul_of_pos_right _ (by omega)
    omega
  cases window with
  | false => simp [DrawSphere32, DrawSphere]
  | true =>
    simp [DrawSphere32, DrawSphere, indices32_eq nSlices nStacks hfit,
      CreateSphere32_eq ops radius nSlices nStacks [] hst (by omega)]

theorem DrawSphere_window (D F : Type) (ops : FloatOps D F) (radius : F)
    (numSlices numStacks : Int) :
    DrawSphere ops true radius numSlices numStacks
      = some { vertexBuffer := CreateSphere ops radius numSlices numStacks []
               indexBuffer := DrawSphere.indices numSlices numStacks
               count := (DrawSphere.indices numSlices numStacks).length } := by
  simp [DrawSphere]

/-! ## Vertex and index counts -/

/-- C1: for all `stacks ≥ 1`, `slices ≥ 1` and every radius (in particular every
positive one), a call of `DrawSphere` with a window builds, from the empty vertex
list, a vertex buffer of exactly `(stacks+1)*(slices+1)` vertices of 3 floats each,
and an index buffer of exactly `stacks*slices*6` indices. -/
theorem sphere_vertex_and_index_count (D F : Type) (ops : FloatOps D F) (radius : F)
    (nStacks nSlices : Nat) (hst : 1 ≤ nStacks) (hsl : 1 ≤ nSlices) :
    ∃ d, DrawSphere ops true radius nSlices nStacks = some d
      ∧ d.vertexBuffer = CreateSphere ops radius nSlices nStacks []
      ∧ d.vertexBuffer.length = 3 * ((nStacks + 1) * (nSlices + 1))
      ∧ d.indexBuffer.length = nStacks * nSlices * 6 := by
  refine ⟨_, DrawSphere_window D F ops radius nSlices nStacks, rfl, ?_, ?_⟩
  · have h1 : ((nStacks : Int) + 1).toNat = nStacks + 1 := by omega
    have h2 : ((nSlices : Int) + 1).toNat = nSlices + 1 := by omega
    simp only [length_CreateSphere, h1, h2, List.length_nil]
    ring
  · simp only [length_indices, Int.toNat_ofNat]
    ring

/-- Witness for C1: radius 2, 3 slices, 1 stack give 8 vertices (24 floats)
and 18 indices. -/
theorem sphere_vertex_and_index_count_witness :
    ∃ d, DrawSphere realArith true 2 ((3 : Nat) : Int) ((1 : Nat) : Int) = some d
      ∧ d.vertexBuffer = CreateSphere realArith 2 ((3 : Nat) : Int) ((1 : Nat) : Int) []
      ∧ d.vertexBuffer.length = 3 * 8
      ∧ d.indexBuffer.length = 18 :=
  sphere_vertex_and_index_count ℝ ℝ realArith 2 1 3 (by decide) (by decide)

/-- C9: `CreateSphere` only appends.  For every initial content `v` and all
`stacks, slices ≥ 0` the list after the call is `v` followed by the
`3*(stacks+1)*(slices+1)` floats the call produces on the empty list; so the
result equals the result on the empty list exactly when `v` is empty. -/
theorem CreateSphere_appends (D F : Type) (ops : FloatOps D F) (radius : F)
    (nStacks nSlices : Nat) (v : List F) :
    CreateSphere ops radius nSlices nStacks v = v ++ CreateSphere ops radius nSlices nStacks []
      ∧ (CreateSphere ops radius nSlices nStacks []).length = 3 * (nStacks + 1) * (nSlices + 1)
      ∧ (CreateSphere ops radius nSlices nStacks v).take v.length = v
      ∧ (CreateSphere ops radius nSlices nStacks v = CreateSphere ops radius nSlices nStacks []
          ↔ v = []) := by
  have happ : CreateSphere ops radius nSlices nStacks v
      = v ++ CreateSphere ops radius nSlices nStacks [] := by
    rw [CreateSphere_eq, CreateSphere_eq ops radius nSlices nStacks [], List.nil_append]
  refine ⟨happ, ?_, ?_, ?_⟩
  · have h1 : ((nStacks : Int) + 1).toNat = nStacks + 1 := by omega
    have h2 : ((nSlices : Int) + 1).toNat = nSlices + 1 := by omega
    simp only [length_CreateSphere, h1, h2, List.length_nil]
    ring
  · rw [happ, List.take_left]
  · constructor
    · intro h
      have hlen := congrArg List.length h
      rw [happ, List.length_append] at hlen
      exact List.length_eq_zero.mp (by omega)
    · intro h
      rw [h]

/-! ## Index values -/

/-- C4: for all `stacks, slices`, `i < stacks` and `j < slices` (which makes
`stacks, slices ≥ 1`), the six indices at
positions `6*(i*slices+j) .. 6*(i*slices+j)+5` of the index sequence built by
`DrawSphere` are `(row_i+j, row_i+j+1, row_{i+1}+j)` (triangle A) followed by
`(row_{i+1}+j, row_i+j+1, row_{i+1}+j+1)` (triangle B), with `row_k = k*(slices+1)`. -/
theorem indices_of_quad (nStacks nSlices i j : Nat) (hi : i < nStacks) (hj : j < nSlices) :
    (DrawSphere.indices nSlices nStacks)[6 * (i * nSlices + j)]?
        = some (i * (nSlices + 1) + j)
      ∧ (DrawSphere.indices nSlices nStacks)[6 * (i * nSlices + j) + 1]?
          = some (i * (nSlices + 1) + j + 1)
      ∧ (DrawSphere.indices nSlices nStacks)[6 * (i * nSlices + j) + 2]?
          = some ((i + 1) * (nSlices + 1) + j)
      ∧ (DrawSphere.indices nSlices nStacks)[6 * (i * nSlices + j) + 3]?
          = some ((i + 1) * (nSlices + 1) + j)
      ∧ (DrawSphere.indices nSlices nStacks)[6 * (i * nSlices + j) + 4]?
          = some (i * (nSlices + 1) + j + 1)
      ∧ (DrawSphere.indices nSlices nStacks)[6 * (i * nSlices + j) + 5]?
          = some ((i + 1) * (nSlices + 1) + j + 1) := by
  have h := fun r hr => indices_getElem? nSlices nStacks i j r hi hj hr
  have h0 := h 0 (by omega)
  have h1 := h 1 (by omega)
  have h2 := h 2 (by omega)
  have h3 := h 3 (by omega)
  have h4 := h 4 (by omega)
  have h5 := h 5 (by omega)
  rw [quadBlock_natCast] at h0 h1 h2 h3 h4 h5
  exact ⟨h0, h1, h2, h3, h4, h5⟩

/-- Witness for C4: with 2 stacks and 4 slices, quad `(1, 2)` occupies positions
`36 .. 41`. -/
theorem indices_of_quad_witness :
    (DrawSphere.indices ((4 : Nat) : Int) ((2 : Nat) : Int))[36]? = some 7
      ∧ (DrawSphere.indices ((4 : Nat) : Int) ((2 : Nat) : Int))[36 + 1]? = some 8
      ∧ (DrawSphere.indices ((4 : Nat) : Int) ((2 : Nat) : Int))[36 + 2]? = some 12
      ∧ (DrawSphere.indices ((4 : Nat) : Int) ((2 : Nat) : Int))[36 + 3]? = some 12
      ∧ (DrawSphere.indices ((4 : Nat) : Int) ((2 : Nat) : Int))[36 + 4]? = some 8
      ∧ (DrawSphere.indices ((4 : Nat) : Int) ((2 : Nat) : Int))[36 + 5]? = some 13 :=
  indices_of_quad 2 4 1 2 (by decide) (by decide)

/-- C2: for all `stacks, slices ≥ 1`, every index in the index buffer built by
`DrawSphere` is strictly less than the number `(stacks+1)*(slices+1)` of vertices that
`CreateSphere` produced for the same counts, so the three floats of the vertex it
names lie inside the vertex buffer; and the number of indices is a multiple of 3. -/
theorem indices_in_bounds (D F : Type) (ops : FloatOps D F) (radius : F)
    (nStacks nSlices : Nat) (hst : 1 ≤ nStacks) (hsl : 1 ≤ nSlices) :
    ∃ d, DrawSphere ops true radius nSlices nStacks = some d
      ∧ d.vertexBuffer.length = 3 * ((nStacks + 1) * (nSlices + 1))
      ∧ (∀ x ∈ d.indexBuffer, x < (nStacks + 1) * (nSlices + 1)
          ∧ 3 * x + 2 < d.vertexBuffer.length)
      ∧ 3 ∣ d.indexBuffer.length := by
  have hlen : (CreateSphere ops radius nSlices nStacks []).length
      = 3 * ((nStacks + 1) * (nSlices + 1)) := by
    have h1 : ((nStacks : Int) + 1).toNat = nStacks + 1 := by omega
    have h2 : ((nSlices : Int) + 1).toNat = nSlices + 1 := by omega
    simp only [length_CreateSphere, h1, h2, List.length_nil]
    ring
  refine ⟨_, DrawSphere_window D F ops radius nSlices nStacks, hlen, ?_, ?_⟩
  · intro x hx
    have hlt : x < (nStacks + 1) * (nSlices + 1) := mem_indices_lt nSlices nStacks x hx
    refine ⟨hlt, ?_⟩
    show 3 * x + 2 < (CreateSphere ops radius nSlices nStacks []).length
    rw [hlen]
    omega
  · show 3 ∣ (DrawSphere.indices nSlices nStacks).length
    rw [length_indices]
    exact ⟨nStacks * (nSlices * 2), by simp only [Int.toNat_ofNat]; ring⟩

/-- Witness for C2: the default mesh of `main`, 30 stacks and 30 slices, has 961
vertices and every index is below 961. -/
theorem indices_in_bounds_witness :
    ∃ d, DrawSphere realArith true 1 ((30 : Nat) : Int) ((30 : Nat) : Int) = some d
      ∧ d.vertexBuffer.length = 3 * ((30 + 1) * (30 + 1))
      ∧ (∀ x ∈ d.indexBuffer, x < (30 + 1) * (30 + 1) ∧ 3 * x + 2 < d.vertexBuffer.length)
      ∧ 3 ∣ d.indexBuffer.length :=
  indices_in_bounds ℝ ℝ realArith 1 30 30 (by decide) (by decide)

/-- C10: for all `stacks, slices ≥ 1`, every vertex offset `k < (stacks+1)*(slices+1)` is
the value of some position of the index sequence built by `DrawSphere` (no orphan
vertices), and each emitted triangle, the indices at positions `3t, 3t+1, 3t+2`,
consists of three pairwise distinct indices. -/
theorem every_vertex_referenced (nStacks nSlices : Nat) (hst : 1 ≤ nStacks)
    (hsl : 1 ≤ nSlices) :
    (∀ k, k < (nStacks + 1) * (nSlices + 1) →
        ∃ p : Nat, (DrawSphere.indices nSlices nStacks)[p]? = some k)
      ∧ (∀ t, 3 * t + 2 < (DrawSphere.indices nSlices nStacks).length →
          ∃ a b c, (DrawSphere.indices nSlices nStacks)[3 * t]? = some a
            ∧ (DrawSphere.indices nSlices nStacks)[3 * t + 1]? = some b
            ∧ (DrawSphere.indices nSlices nStacks)[3 * t + 2]? = some c
            ∧ a ≠ b ∧ b ≠ c ∧ a ≠ c) := by
  generalize hidx : DrawSphere.indices nSlices nStacks = idx
  have hget : ∀ i j r, i < nStacks → j < nSlices → r < 6 →
      idx[6 * (i * nSlices + j) + r]?
        = [i * (nSlices + 1) + j, i * (nSlices + 1) + j + 1, (i + 1) * (nSlices + 1) + j,
           (i + 1) * (nSlices + 1) + j, i * (nSlices + 1) + j + 1,
           (i + 1) * (nSlices + 1) + j + 1][r]? := by
    intro i j r hi hj hr
    rw [← quadBlock_natCast, ← hidx]
    exact indices_getElem? nSlices nStacks i j r hi hj hr
  constructor
  · intro k hk
    have hj : k % (nSlices + 1) < nSlices + 1 := Nat.mod_lt _ (by omega)
    have hi : k / (nSlices + 1) < nStacks + 1 := (Nat.div_lt_iff_lt_mul (by omega)).mpr hk
    have hkeq : k / (nSlices + 1) * (nSlices + 1) + k % (nSlices + 1) = k := by
      rw [Nat.mul_comm]; exact Nat.div_add_mod k (nSlices + 1)
    generalize k / (nSlices + 1) = i at hi hkeq
    generalize k % (nSlices + 1) = j at hj hkeq
    by_cases hi2 : i < nStacks
    · by_cases hj2 : j < nSlices
      · refine ⟨6 * (i * nSlices + j) + 0, ?_⟩
        rw [hget i j 0 hi2 hj2 (by omega), ← hkeq]
        rfl
      · refine ⟨6 * (i * nSlices + (nSlices - 1)) + 1, ?_⟩
        rw [hget i (nSlices - 1) 1 hi2 (by omega) (by omega), ← hkeq]
        have hj3 : nSlices - 1 + 1 = j := by omega
        simp only [List.getElem?_cons_succ, List.getElem?_cons_zero, Nat.add_assoc, hj3]
    · obtain ⟨m, hm⟩ : ∃ m, nStacks = m + 1 := ⟨nStacks - 1, by omega⟩
      have him : i = m + 1 := by omega
      by_cases hj2 : j < nSlices
      · refine ⟨6 * (m * nSlices + j) + 2, ?_⟩
        rw [hget m j 2 (by omega) hj2 (by omega), ← hkeq, him]
        rfl
      · refine ⟨6 * (m * nSlices + (nSlices - 1)) + 5, ?_⟩
        rw [hget m (nSlices - 1) 5 (by omega) (by omega) (by omega), ← hkeq, him]
        have hj3 : nSlices - 1 + 1 = j := by omega
        simp only [List.getElem?_cons_succ, List.getElem?_cons_zero, Nat.add_assoc, hj3]
  · intro t ht
    have hlen : idx.length = nStacks * (nSlices * 6) := by
      rw [← hidx, length_indices, Int.toNat_ofNat, Int.toNat_ofNat]
    rw [hlen] at ht
    have hmul : nStacks * (nSlices * 6) = 6 * (nStacks * nSlices) := by ring
    have hq : t / 2 < nStacks * nSlices := by omega
    have hj : t / 2 % nSlices < nSlices := Nat.mod_lt _ (by omega)
    have hi : t / 2 / nSlices < nStacks := (Nat.div_lt_iff_lt_mul (by omega)).mpr hq
    have hqeq : t / 2 / nSlices * nSlices + t / 2 % nSlices = t / 2 := by
      rw [Nat.mul_comm]; exact Nat.div_add_mod (t / 2) nSlices
    generalize t / 2 / nSlices = i at hi hqeq
    generalize t / 2 % nSlices = j at hj hqeq
    have hrow : (i + 1) * (nSlices + 1) = i * (nSlices + 1) + (nSlices + 1) := by ring
    rcases Nat.mod_two_eq_zero_or_one t with h2 | h2
    · have e0 : 3 * t = 6 * (i * nSlices + j) + 0 := by omega
      have e1 : 3 * t + 1 = 6 * (i * nSlices + j) + 1 := by omega
      have e2 : 3 * t + 2 = 6 * (i * nSlices + j) + 2 := by omega
      refine ⟨i * (nSlices + 1) + j, i * (nSlices + 1) + j + 1, (i + 1) * (nSlices + 1) + j,
        ?_, ?_, ?_, ?_, ?_, ?_⟩
      · rw [e0, hget i j 0 hi hj (by omega)]; rfl
      · rw [e1, hget i j 1 hi hj (by omega)]; rfl
      · rw [e2, hget i j 2 hi hj (by omega)]; rfl
      · omega
      · omega
      · omega
    · have e0 : 3 * t = 6 * (i * nSlices + j) + 3 := by omega
      have e1 : 3 * t + 1 = 6 * (i * nSlices + j) + 4 := by omega
      have e2 : 3 * t + 2 = 6 * (i * nSlices + j) + 5 := by omega
      refine ⟨(i + 1) * (nSlices + 1) + j, i * (nSlices + 1) + j + 1,
        (i + 1) * (nSlices + 1) + j + 1, ?_, ?_, ?_, ?_, ?_, ?_⟩
      · rw [e0, hget i j 3 hi hj (by omega)]; rfl
      · rw [e1, hget i j 4 hi hj (by omega)]; rfl
      · rw [e2, hget i j 5 hi hj (by omega)]; rfl
      · omega
      · omega
      · omega

/-- Witness for C10, on the mesh of 2 stacks and 4 slices (15 vertices, 16 triangles). -/
theorem every_vertex_referenced_witness :
    (∀ k, k < (2 + 1) * (4 + 1) →
        ∃ p : Nat, (DrawSphere.indices ((4 : Nat) : Int) ((2 : Nat) : Int))[p]? = some k)
      ∧ (∀ t, 3 * t + 2 < (DrawSphere.indices ((4 : Nat) : Int) ((2 : Nat) : Int)).length →
          ∃ a b c, (DrawSphere.indices ((4 : Nat) : Int) ((2 : Nat) : Int))[3 * t]? = some a
            ∧ (DrawSphere.indices ((4 : Nat) : Int) ((2 : Nat) : Int))[3 * t + 1]? = some b
            ∧ (DrawSphere.indices ((4 : Nat) : Int) ((2 : Nat) : Int))[3 * t + 2]? = some c
            ∧ a ≠ b ∧ b ≠ c ∧ a ≠ c) :=
  every_vertex_referenced 2 4 (by decide) (by decide)

/-! ## Vertex order and vertex values -/

/-- C3: for all `stacks, slices ≥ 1`, `i ≤ stacks` and `j ≤ slices`, the floats at
positions `3k, 3k+1, 3k+2`, `k = i*(slices+1)+j`, of the list produced by `CreateSphere`
are `radius * (sin(phi)cos(theta), cos(phi), sin(phi)sin(theta))` with
`phi = i*pi/stacks` and `theta = j*2*pi/slices`: vertices are emitted row by row.
The first part states it for any floating-point operations, with the products
associated as in the code; the second part reads the arithmetic over the reals. -/
theorem vertex_of_grid_point (D F : Type) (ops : FloatOps D F) (radius : F) (rad : ℝ)
    (nStacks nSlices i j : Nat) (_ : 1 ≤ nStacks) (_ : 1 ≤ nSlices)
    (hi : i ≤ nStacks) (hj : j ≤ nSlices) :
    ((CreateSphere ops radius nSlices nStacks [])[3 * (i * (nSlices + 1) + j)]?
          = some (ops.mulF (ops.mulF radius (ops.sinf (phi ops nStacks i)))
              (ops.cosf (theta ops nSlices j)))
      ∧ (CreateSphere ops radius nSlices nStacks [])[3 * (i * (nSlices + 1) + j) + 1]?
          = some (ops.mulF radius (ops.cosf (phi ops nStacks i)))
      ∧ (CreateSphere ops radius nSlices nStacks [])[3 * (i * (nSlices + 1) + j) + 2]?
          = some (ops.mulF (ops.mulF radius (ops.sinf (phi ops nStacks i)))
              (ops.sinf (theta ops nSlices j))))
    ∧ ((CreateSphere realArith rad nSlices nStacks [])[3 * (i * (nSlices + 1) + j)]?
          = some (rad * Real.sin (i * Real.pi / nStacks) * Real.cos (j * 2 * Real.pi / nSlices))
      ∧ (CreateSphere realArith rad nSlices nStacks [])[3 * (i * (nSlices + 1) + j) + 1]?
          = some (rad * Real.cos (i * Real.pi / nStacks))
      ∧ (CreateSphere realArith rad nSlices nStacks [])[3 * (i * (nSlices + 1) + j) + 2]?
          = some (rad * Real.sin (i * Real.pi / nStacks)
              * Real.sin (j * 2 * Real.pi / nSlices))) := by
  have key : ∀ (D F : Type) (ops : FloatOps D F) (radius : F),
      (CreateSphere ops radius nSlices nStacks [])[3 * (i * (nSlices + 1) + j)]?
          = some (ops.mulF (ops.mulF radius (ops.sinf (phi ops nStacks i)))
              (ops.cosf (theta ops nSlices j)))
        ∧ (CreateSphere ops radius nSlices nStacks [])[3 * (i * (nSlices + 1) + j) + 1]?
            = some (ops.mulF radius (ops.cosf (phi ops nStacks i)))
        ∧ (CreateSphere ops radius nSlices nStacks [])[3 * (i * (nSlices + 1) + j) + 2]?
            = some (ops.mulF (ops.mulF radius (ops.sinf (phi ops nStacks i)))
                (ops.sinf (theta ops nSlices j))) := by
    intro D F ops radius
    have h := fun r hr => CreateSphere_getElem? ops radius nSlices nStacks i j r hi hj hr
    exact ⟨h 0 (by omega), h 1 (by omega), h 2 (by omega)⟩
  refine ⟨key D F ops radius, ?_⟩
  have hphi : phi realArith nStacks i = i * Real.pi / nStacks := by
    simp [phi, realArith]
  have hth : theta realArith nSlices j = j * 2 * Real.pi / nSlices := by
    simp [theta, realArith]
  have hreal := key ℝ ℝ realArith rad
  rw [hphi, hth] at hreal
  exact hreal

/-- Witness for C3: 2 stacks, 4 slices, grid point `(1, 3)`, vertex offset 8. -/
theorem vertex_of_grid_point_witness :
    (CreateSphere realArith 1 ((4 : Nat) : Int) ((2 : Nat) : Int) [])[3 * 8]?
        = some (1 * Real.sin (((1 : Nat) : ℝ) * Real.pi / ((2 : Nat) : ℝ))
            * Real.cos (((3 : Nat) : ℝ) * 2 * Real.pi / ((4 : Nat) : ℝ)))
      ∧ (CreateSphere realArith 1 ((4 : Nat) : Int) ((2 : Nat) : Int) [])[3 * 8 + 1]?
          = some (1 * Real.cos (((1 : Nat) : ℝ) * Real.pi / ((2 : Nat) : ℝ)))
      ∧ (CreateSphere realArith 1 ((4 : Nat) : Int) ((2 : Nat) : Int) [])[3 * 8 + 2]?
          = some (1 * Real.sin (((1 : Nat) : ℝ) * Real.pi / ((2 : Nat) : ℝ))
              * Real.sin (((3 : Nat) : ℝ) * 2 * Real.pi / ((4 : Nat) : ℝ))) :=
  (vertex_of_grid_point ℝ ℝ realArith 1 1 2 4 1 3 (by decide) (by decide) (by decide)
    (by decide)).2

/-! ## Degenerate tessellation counts -/

/-- C7 as stated fails at the top of the `int` range.  With `slices = 0` and
`stacks = INT_MAX` the loop `for (int i = 0; i <= numStacks; ++i)` cannot leave through
its guard and `++i` overflows; with `stacks = 0` and `slices = 2^30` the product `j * 2`
overflows in iteration `j = 2^30`.  Both runs have undefined behaviour instead of a
completed draw call. -/
theorem degenerate_counts_overflow :
    DrawSphere32 realArith true 1 0 2147483647 = none
      ∧ DrawSphere32 realArith true 1 1073741824 0 = none := by
  have h1 : CreateSphere32 realArith 1 0 2147483647 [] = none := by
    unfold CreateSphere32
    exact forLe32_INT_MAX _
      (fun k s => ⟨_, stackBody32_eq realArith 1 0 2147483647 k s (by norm_num)⟩) _ 0 []
      (by norm_num) rfl
  have h2 : CreateSphere32 realArith 1 1073741824 0 [] = none := by
    have hrow : CreateSphere32.stackBody realArith 1 1073741824 0 0 [] = none := by
      unfold CreateSphere32.stackBody
      exact forLe32_overflow 1073741824 _ 1073741824 (le_refl _) (by norm_num)
        (fun s => sliceBody32_overflow realArith 1 1073741824 _ 1073741824 s (by norm_num))
        _ 0 [] (by norm_num) rfl
    unfold CreateSphere32
    rw [forLe32, if_pos (le_refl 0), hrow]
  constructor
  · simp [DrawSphere32, h1]
  · simp [DrawSphere32, h2]

/-- C7, amended: for every radius and all counts with `slices = 0` and
`stacks < INT_MAX`, or `stacks = 0` and `slices < 2^30`, the mesh generation of
`DrawSphere` with a 32-bit `int` completes without overflow: with a window it reaches
the draw call with an empty index buffer and `count = 0`, so nothing is drawn, and
with a vertex buffer of `(stacks+1)*(slices+1)` vertices (none if the other count is
negative); without a window it returns at once.  No branch of the function fails and
the only divisions are the `double` divisions `divD`, which are total. -/
theorem degenerate_counts_complete (D F : Type) (ops : FloatOps D F) (radius : F)
    (numSlices numStacks : Int)
    (h : (numSlices = 0 ∧ numStacks < 2147483647)
      ∨ (numStacks = 0 ∧ numSlices < 1073741824)) :
    DrawSphere32 ops false radius numSlices numStacks = some none
      ∧ ∃ d, DrawSphere32 ops true radius numSlices numStacks = some (some d)
          ∧ d.indexBuffer = [] ∧ d.count = 0
          ∧ d.vertexBuffer.length = 3 * ((numStacks + 1).toNat * (numSlices + 1).toNat) := by
  have hv : CreateSphere32 ops radius numSlices numStacks []
      = some (CreateSphere ops radius numSlices numStacks []) := by
    rcases h with ⟨h1, h2⟩ | ⟨h1, h2⟩
    · exact CreateSphere32_eq ops radius numSlices numStacks [] h2 (by omega)
    · exact CreateSphere32_eq ops radius numSlices numStacks [] (by omega) (by omega)
  have hidx : DrawSphere32.indices numSlices numStacks = some [] := by
    rcases h with ⟨h1, h2⟩ | ⟨h1, _⟩
    · exact (indices32_degenerate numSlices numStacks (Or.inl ⟨h1, by omega⟩)).1
    · exact (indices32_degenerate numSlices numStacks (Or.inr h1)).1
  refine ⟨by simp [DrawSphere32], ⟨CreateSphere ops radius numSlices numStacks [], [], 0⟩,
    by simp [DrawSphere32, hv, hidx], rfl, rfl, ?_⟩
  show (CreateSphere ops radius numSlices numStacks []).length = _
  rw [length_CreateSphere, List.length_nil]
  ring

/-- Witness for C7, amended: no slices and `INT_MAX - 1` stacks, the largest count
left: `INT_MAX` vertices, no index. -/
theorem degenerate_counts_complete_witness :
    DrawSphere32 realArith false 1 0 2147483646 = some none
      ∧ ∃ d, DrawSphere32 realArith true 1 0 2147483646 = some (some d)
          ∧ d.indexBuffer = [] ∧ d.count = 0
          ∧ d.vertexBuffer.length
              = 3 * (((2147483646 : Int) + 1).toNat * ((0 : Int) + 1).toNat) :=
  degenerate_counts_complete ℝ ℝ realArith 1 0 2147483646 (Or.inl ⟨rfl, by norm_num⟩)

/-! ## Geometry over the real numbers -/

/-- C5, with the arithmetic read over the reals: for every `radius > 0` and
`stacks, slices ≥ 1`, every vertex `(x, y, z)` generated by `CreateSphere` satisfies
`x^2 + y^2 + z^2 = radius^2`, so its Euclidean distance from the origin is `radius`. -/
theorem vertices_on_sphere (rad : ℝ) (nStacks nSlices k : Nat) (hrad : 0 < rad)
    (_ : 1 ≤ nStacks) (_ : 1 ≤ nSlices) (hk : k < (nStacks + 1) * (nSlices + 1)) :
    ∃ x y z, (CreateSphere realArith rad nSlices nStacks [])[3 * k]? = some x
      ∧ (CreateSphere realArith rad nSlices nStacks [])[3 * k + 1]? = some y
      ∧ (CreateSphere realArith rad nSlices nStacks [])[3 * k + 2]? = some z
      ∧ x ^ 2 + y ^ 2 + z ^ 2 = rad ^ 2 ∧ Real.sqrt (x ^ 2 + y ^ 2 + z ^ 2) = rad := by
  have hj : k % (nSlices + 1) < nSlices + 1 := Nat.mod_lt _ (by omega)
  have hi : k / (nSlices + 1) < nStacks + 1 := (Nat.div_lt_iff_lt_mul (by omega)).mpr hk
  have hkeq : k / (nSlices + 1) * (nSlices + 1) + k % (nSlices + 1) = k := by
    rw [Nat.mul_comm]; exact Nat.div_add_mod k (nSlices + 1)
  generalize k / (nSlices + 1) = i at hi hkeq
  generalize k % (nSlices + 1) = j at hj hkeq
  have h := fun r hr =>
    CreateSphere_getElem? realArith rad nSlices nStacks i j r (by omega) (by omega) hr
  rw [hkeq] at h
  have hsum : ∀ p t : ℝ, (rad * Real.sin p * Real.cos t) ^ 2 + (rad * Real.cos p) ^ 2
      + (rad * Real.sin p * Real.sin t) ^ 2 = rad ^ 2 := by
    intro p t
    have hp := Real.sin_sq_add_cos_sq p
    have ht := Real.sin_sq_add_cos_sq t
    linear_combination (rad ^ 2 * Real.sin p ^ 2) * ht + rad ^ 2 * hp
  have hval := hsum (phi realArith nStacks i) (theta realArith nSlices j)
  exact ⟨rad * Real.sin (phi realArith nStacks i) * Real.cos (theta realArith nSlices j),
    rad * Real.cos (phi realArith nStacks i),
    rad * Real.sin (phi realArith nStacks i) * Real.sin (theta realArith nSlices j),
    h 0 (by omega), h 1 (by omega), h 2 (by omega), hval,
    by rw [hval]; exact Real.sqrt_sq hrad.le⟩

/-- Witness for C5: radius 2, 3 slices, 1 stack, vertex 5. -/
theorem vertices_on_sphere_witness :
    ∃ x y z, (CreateSphere realArith 2 ((3 : Nat) : Int) ((1 : Nat) : Int) [])[3 * 5]? = some x
      ∧ (CreateSphere realArith 2 ((3 : Nat) : Int) ((1 : Nat) : Int) [])[3 * 5 + 1]? = some y
      ∧ (CreateSphere realArith 2 ((3 : Nat) : Int) ((1 : Nat) : Int) [])[3 * 5 + 2]? = some z
      ∧ x ^ 2 + y ^ 2 + z ^ 2 = (2 : ℝ) ^ 2 ∧ Real.sqrt (x ^ 2 + y ^ 2 + z ^ 2) = 2 :=
  vertices_on_sphere 2 1 3 5 (by norm_num) (by decide) (by decide) (by decide)

/-- C6, with the arithmetic read over the reals: for every `radius > 0` and
`stacks, slices ≥ 1`, each of the `slices+1` vertices of row `i = 0` is `(0, radius, 0)`
and each of the `slices+1` vertices of row `i = stacks` is `(0, -radius, 0)`. -/
theorem pole_rows_coincide (rad : ℝ) (nStacks nSlices j : Nat) (_ : 0 < rad)
    (hst : 1 ≤ nStacks) (_ : 1 ≤ nSlices) (hj : j ≤ nSlices) :
    ((CreateSphere realArith rad nSlices nStacks [])[3 * (0 * (nSlices + 1) + j)]? = some 0
        ∧ (CreateSphere realArith rad nSlices nStacks [])[3 * (0 * (nSlices + 1) + j) + 1]?
            = some rad
        ∧ (CreateSphere realArith rad nSlices nStacks [])[3 * (0 * (nSlices + 1) + j) + 2]?
            = some 0)
      ∧ ((CreateSphere realArith rad nSlices nStacks [])[3 * (nStacks * (nSlices + 1) + j)]?
            = some 0
        ∧ (CreateSphere realArith rad nSlices nStacks [])[3 * (nStacks * (nSlices + 1) + j) + 1]?
            = some (-rad)
        ∧ (CreateSphere realArith rad nSlices nStacks [])[3 * (nStacks * (nSlices + 1) + j) + 2]?
            = some 0) := by
  have hn := fun r hr =>
    CreateSphere_getElem? realArith rad nSlices nStacks 0 j r (by omega) hj hr
  have hs := fun r hr =>
    CreateSphere_getElem? realArith rad nSlices nStacks nStacks j r (by omega) hj hr
  have hphi0 : phi realArith nStacks ((0 : Nat) : Int) = 0 := by
    simp [phi, realArith]
  have hphi1 : phi realArith nStacks (nStacks : Int) = Real.pi := by
    have hne : (nStacks : ℝ) ≠ 0 := by
      have : (0 : ℝ) < nStacks := by exact_mod_cast hst
      exact ne_of_gt this
    simp only [phi, realArith, Int.cast_natCast]
    field_simp
  have hb0 : vertexBlock realArith rad nSlices 0 j = [0, rad, 0] := by
    simp [vertexBlock, realArith]
  have hb1 : vertexBlock realArith rad nSlices Real.pi j = [0, -rad, 0] := by
    simp [vertexBlock, realArith]
  have hn0 := hn 0 (by omega)
  have hn1 := hn 1 (by omega)
  have hn2 := hn 2 (by omega)
  have hs0 := hs 0 (by omega)
  have hs1 := hs 1 (by omega)
  have hs2 := hs 2 (by omega)
  rw [hphi0, hb0] at hn0 hn1 hn2
  rw [hphi1, hb1] at hs0 hs1 hs2
  exact ⟨⟨hn0, hn1, hn2⟩, ⟨hs0, hs1, hs2⟩⟩

/-- Witness for C6: radius 1, 4 slices, 2 stacks give 15 vertices; vertex 0 is
`(0, 1, 0)` and the last vertex, vertex 14, is `(0, -1, 0)`. -/
theorem pole_rows_coincide_witness :
    (CreateSphere realArith 1 ((4 : Nat) : Int) ((2 : Nat) : Int) []).length = 3 * 15
      ∧ ((CreateSphere realArith 1 ((4 : Nat) : Int) ((2 : Nat) : Int) [])[3 * 0]? = some 0
        ∧ (CreateSphere realArith 1 ((4 : Nat) : Int) ((2 : Nat) : Int) [])[3 * 0 + 1]? = some 1
        ∧ (CreateSphere realArith 1 ((4 : Nat) : Int) ((2 : Nat) : Int) [])[3 * 0 + 2]? = some 0)
      ∧ ((CreateSphere realArith 1 ((4 : Nat) : Int) ((2 : Nat) : Int) [])[3 * 14]? = some 0
        ∧ (CreateSphere realArith 1 ((4 : Nat) : Int) ((2 : Nat) : Int) [])[3 * 14 + 1]?
            = some (-1 : ℝ)
        ∧ (CreateSphere realArith 1 ((4 : Nat) : Int) ((2 : Nat) : Int) [])[3 * 14 + 2]?
            = some 0) :=
  ⟨by rw [length_CreateSphere]; rfl,
    (pole_rows_coincide 1 2 4 0 (by norm_num) (by decide) (by decide) (by decide)).1,
    (pole_rows_coincide 1 2 4 4 (by norm_num) (by decide) (by decide) (by decide)).2⟩

/-! ## Exit code of `main` -/

theorem mainLoop_ends (env : Env) (fuel : Nat) :
    ∀ (frame : Nat) (closeFlag : Bool) (trace : List Call),
      (closeFlag = true ∧ 1 ≤ fuel)
        ∨ (∃ n, frame ≤ n ∧ (env.closeRequested n = true ∨ env.escapePressed n = true)
            ∧ n + 2 ≤ frame + fuel) →
      ∃ t, mainLoop env true fuel frame closeFlag trace = some t := by
  induction fuel with
  | zero =>
    intro frame closeFlag trace h
    rcases h with ⟨_, h⟩ | ⟨n, h1, _, h2⟩ <;> omega
  | succ fuel ih =>
    intro frame closeFlag trace h
    cases hflag : closeFlag with
    | true => exact ⟨trace ++ [Call.WindowShouldClose], by simp [mainLoop, WindowShouldClose]⟩
    | false =>
      subst hflag
      rcases h with ⟨h, _⟩ | ⟨n, h1, h2, h3⟩
      · cases h
      · simp only [mainLoop, WindowShouldClose, SwapBuffers, Bool.not_true,
          Bool.false_eq_true, if_false, if_true, Bool.false_or]
        apply ih
        by_cases hn : frame = n
        · subst hn
          left
          refine ⟨?_, by omega⟩
          rcases h2 with h2 | h2
          · rw [h2]; simp
          · rw [h2]; simp
        · right
          exact ⟨n, by omega, h2, by omega⟩

/-- C8: the exit code of the program is `-1` if any of the three initialisation steps
(window creation, device function loading, shader compile and link) fails, and then the
main loop is never entered: its guard `WindowShouldClose` is not evaluated and nothing is
drawn.  When all three succeed, the exit code is `0` whenever the program returns, and
it does return once the window is asked to close (close request or escape key). -/
theorem exit_code (env : Env) (fuel : Nat) :
    (((InitWindow env).1 = false ∨ InitGLAD env = false ∨ InitShaders env = false) →
        ∃ trace, main env fuel = some (-1, trace)
          ∧ Call.WindowShouldClose ∉ trace ∧ Call.DrawSphere ∉ trace)
      ∧ (((InitWindow env).1 = true ∧ InitGLAD env = true ∧ InitShaders env = true) →
          (∀ code trace, main env fuel = some (code, trace) → code = 0)
            ∧ (∀ n, (env.closeRequested n = true ∨ env.escapePressed n = true) →
                n + 2 ≤ fuel → ∃ trace, main env fuel = some (0, trace))) := by
  constructor
  · intro h
    by_cases h1 : (InitWindow env).1 = false
    · refine ⟨[Call.InitWindow], ?_, by decide, by decide⟩
      simp [main, h1]
    · by_cases h2 : InitGLAD env = false
      · refine ⟨[Call.InitWindow, Call.InitGLAD], ?_, by decide, by decide⟩
        simp [main, h1, h2]
      · have h3 : InitShaders env = false := by tauto
        refine ⟨[Call.InitWindow, Call.InitGLAD, Call.InitShaders], ?_, by decide, by decide⟩
        simp [main, h1, h2, h3]
  · rintro ⟨h1, h2, h3⟩
    have hw : (InitWindow env).2 = true := by
      unfold InitWindow at h1 ⊢
      split_ifs at h1 ⊢
      rfl
    have hmain : main env fuel
        = match mainLoop env true fuel 0 false
            [Call.InitWindow, Call.InitGLAD, Call.InitShaders] with
          | none => none
          | some trace => some (0, trace ++ [Call.CloseWindow]) := by
      simp [main, h1, h2, h3, hw]
    constructor
    · intro code trace hm
      rw [hmain] at hm
      split at hm
      · cases hm
      · simp only [Option.some.injEq, Prod.mk.injEq] at hm
        exact hm.1.symm
    · intro n hn hfuel
      obtain ⟨t, ht⟩ := mainLoop_ends env fuel 0 false
        [Call.InitWindow, Call.InitGLAD, Call.InitShaders]
        (Or.inr ⟨n, by omega, hn, by omega⟩)
      exact ⟨t ++ [Call.CloseWindow], by rw [hmain, ht]⟩

/-- Witness for C8: a run whose window cannot be created exits with `-1` before the
main loop; a run whose start-up succeeds and whose window is closed in frame 1 exits
with `0`. -/
theorem exit_code_witness :
    (∃ trace, main ⟨true, false, true, true, true, true, fun _ => false, fun _ => false⟩ 3
        = some (-1, trace)
        ∧ Call.WindowShouldClose ∉ trace ∧ Call.DrawSphere ∉ trace)
      ∧ (∃ trace,
          main ⟨true, true, true, true, true, true, fun n => decide (n = 1), fun _ => false⟩ 3
            = some (0, trace)) :=
  ⟨(exit_code ⟨true, false, true, true, true, true, fun _ => false, fun _ => false⟩ 3).1
      (Or.inl rfl),
    ((exit_code ⟨true, true, true, true, true, true, fun n => decide (n = 1), fun _ => false⟩
        3).2 ⟨rfl, rfl, rfl⟩).2 1 (Or.inl rfl) (by decide)⟩

end OPENAL
